import Mathlib

/-!
Verification of the alpha-channel transforms of the airtime icon scripts.

The repository consists of four Python scripts that generate, download and
post-process small RGBA PNG notification icons.  We embed the per-pixel
arithmetic of the three alpha transforms (threshold, opacity boost,
silhouette fill), the resampling size contract, and the control flow of the
two in-place `main` loops (skip-on-missing, backup-once).

Conventions of the embedding:
* an image is a row-major list of rows of RGBA pixels with `Nat` channels
  (the scripts work on `uint8` data, so channel values are at most 255;
  theorems that need the bound take it as a hypothesis);
* Python/NumPy `float` arithmetic on alpha values is modelled with exact
  rationals `ℚ`; `astype(np.uint8)` is C truncation toward zero followed by
  reduction modulo 256;
* PIL `Image.composite` blends with the standard `MULDIV255` rounding used
  by `Paste.c`; `putalpha` replaces the alpha plane;
* file I/O is stripped: the transform functions act on decoded images, and
  the `main` loops act on an abstract file-system state.
-/

namespace Airtime

/-- One RGBA pixel.  The scripts manipulate `uint8` channels; we use `ℕ`
and carry the `≤ 255` bound as a hypothesis where a proof needs it. -/
structure Pixel where
  r : ℕ
  g : ℕ
  b : ℕ
  a : ℕ
deriving DecidableEq

/-- An image: row-major list of rows of pixels (the shape of the
`numpy` array `data[y][x]` the scripts index into). -/
abbrev Img := List (List Pixel)

/-- Pixel lookup at row `i`, column `j` (`data[i, j]`). -/
def pixelAt (img : Img) (i j : ℕ) : Option Pixel :=
  img[i]?.bind fun row => row[j]?

/-- The alpha plane entry at `(i, j)` (`data[i, j, 3]`). -/
def alphaAt (img : Img) (i j : ℕ) : Option ℕ :=
  (pixelAt img i j).map Pixel.a

/-- The color-channel entries at `(i, j)` (`data[i, j, 0..2]`). -/
def colorAt (img : Img) (i j : ℕ) : Option (ℕ × ℕ × ℕ) :=
  (pixelAt img i j).map fun p => (p.r, p.g, p.b)

/-! ## process_icon_opacity.py : the threshold transform -/

/-- `OPACITY_THRESHOLD = int(0.15 * 255)` from `process_icon_opacity.py`.
Python `int()` truncates `38.25` to `38`. -/
def OPACITY_THRESHOLD : ℕ := (Int.floor ((0.15 : ℚ) * 255)).toNat

/-- The per-pixel alpha update of `process_image`:
`np.where(alpha >= OPACITY_THRESHOLD + 1, 255, 0)`. -/
def threshAlpha (a : ℕ) : ℕ :=
  if OPACITY_THRESHOLD + 1 ≤ a then 255 else 0

/-- `process_image` writes the thresholded alpha back into `data[:, :, 3]`
and leaves the color channels alone. -/
def threshPixel (p : Pixel) : Pixel :=
  { p with a := threshAlpha p.a }

/-- `process_image` of `process_icon_opacity.py`, acting on the decoded
RGBA array (file open/save stripped). -/
def process_image (img : Img) : Img :=
  img.map (List.map threshPixel)

theorem opacity_threshold_val : OPACITY_THRESHOLD = 38 := by
  have h : ((0.15 : ℚ) * 255) = (153 : ℚ) / 4 := by norm_num
  rw [OPACITY_THRESHOLD, h]
  norm_num
  rfl

theorem pixelAt_map (f : Pixel → Pixel) (img : Img) (i j : ℕ) :
    pixelAt (img.map (List.map f)) i j = (pixelAt img i j).map f := by
  unfold pixelAt
  rw [List.getElem?_map]
  cases img[i]? with
  | none => rfl
  | some row => simp [List.getElem?_map]

theorem pixelAt_process_image (img : Img) (i j : ℕ) :
    pixelAt (process_image img) i j = (pixelAt img i j).map threshPixel :=
  pixelAt_map threshPixel img i j

/-! ## increase_smoke_opacity.py : the opacity boost transform -/

/-- Truncation toward zero, the behavior of a C float-to-integer cast
(what `astype` performs on each element). -/
def truncTowardZero (q : ℚ) : ℤ :=
  if 0 ≤ q then Int.floor q else Int.ceil q

/-- `astype(np.uint8)` applied to one float element: truncate toward zero,
then reduce modulo 256. -/
def npUint8 (q : ℚ) : ℕ :=
  (truncTowardZero q % 256).toNat

/-- The per-pixel alpha update of `increase_smoke_opacity`:
`alpha[smoke_mask] = np.minimum(255, alpha[smoke_mask] * opacity_multiplier)`
on the float copy of the alpha plane (`smoke_mask = alpha < 240`),
followed by `alpha.astype(np.uint8)`.  A pixel with `a ≥ 240` is carried
through the float round-trip unchanged. -/
def boostAlpha (m : ℚ) (a : ℕ) : ℕ :=
  if a < 240 then npUint8 (min 255 ((a : ℚ) * m)) else a

/-- `increase_smoke_opacity` assigns only `pixels[:, :, 3]`; the color
channels are copied through. -/
def boostPixel (m : ℚ) (p : Pixel) : Pixel :=
  { p with a := boostAlpha m p.a }

/-- `increase_smoke_opacity` of `increase_smoke_opacity.py`, acting on the
decoded RGBA array (file open/save stripped; `opacity_multiplier` is the
parsed float, modelled as an exact rational). -/
def increase_smoke_opacity (m : ℚ) (img : Img) : Img :=
  img.map (List.map (boostPixel m))

/-! ## create_emoji_silhouettes.py : the silhouette fill -/

/-- PIL's `MULDIV255(a, b)` rounding idiom from `Paste.c`:
`tmp = a*b + 128; result = ((tmp >> 8) + tmp) >> 8`, a correctly rounded
`a*b/255` for byte operands. -/
def muldiv255 (x y : ℕ) : ℕ :=
  ((x * y + 128) / 256 + (x * y + 128)) / 256

/-- One channel of `Image.composite(fg, bg, mask)` at a pixel whose mask
value is `mask` (PIL's `BLEND`: keep `bg` weighted by `255 - mask`, add the
pasted `fg` weighted by `mask`). -/
def blendChannel (bg fg mask : ℕ) : ℕ :=
  muldiv255 bg (255 - mask) + muldiv255 fg mask

/-- One pixel of the silhouette construction in `download_and_convert`:
composite a uniform `fill` layer over a fresh `(0, 0, 0, 0)` image using
the source alpha as mask, then `putalpha(alpha)` restores the source
alpha.  The saved white variant uses `fill = 255`. -/
def silhouettePixel (fill : ℕ) (p : Pixel) : Pixel :=
  { r := blendChannel 0 fill p.a
    g := blendChannel 0 fill p.a
    b := blendChannel 0 fill p.a
    a := p.a }

/-- The silhouette transform of `download_and_convert`, acting on the
decoded source image. -/
def silhouetteImage (fill : ℕ) (img : Img) : Img :=
  img.map (List.map (silhouettePixel fill))

/-! ## Resampling and density lists -/

/-- `DENSITIES` shared by `create_emoji_silhouettes.py` and
`generate_notification_icons.py` / `increase_smoke_opacity.py`. -/
def DENSITIES : List (String × ℕ) :=
  [("mdpi", 24), ("hdpi", 36), ("xhdpi", 48), ("xxhdpi", 72), ("xxxhdpi", 96)]

/-- `img.resize((n, n), Image.Resampling.LANCZOS)`: by PIL's `resize`
contract the output raster is exactly `n × n`; the Lanczos interpolation
that fills each output pixel is abstracted as the `kernel` parameter. -/
def resizeSquare (kernel : Img → ℕ → ℕ → ℕ → Pixel) (img : Img) (n : ℕ) : Img :=
  (List.range n).map fun i => (List.range n).map fun j => kernel img n i j

/-! ## The main loops: skip-on-missing, abort-on-decode-error, backup-once -/

/-- What the file system holds at a path the scripts read:
nothing, bytes `Image.open` raises on, or a decodable RGBA image. -/
inductive FileState where
  | missing
  | corrupt
  | decoded (img : Img)
deriving DecidableEq

/-- `DENSITIES` of `process_icon_opacity.py` (directory suffixes only). -/
def DENSITY_DIRS : List String :=
  ["mdpi", "hdpi", "xhdpi", "xxhdpi", "xxxhdpi"]

/-- `ICON_NAMES` of `process_icon_opacity.py`. -/
def ICON_NAMES : List String :=
  ["ic_notification_cigarette", "ic_notification_leaf"]

/-- The (density, icon) pairs `process_icon_opacity.main` iterates over,
outer loop over densities, inner over icons. -/
def thresholdItems : List (String × String) :=
  (DENSITY_DIRS.map fun d => ICON_NAMES.map fun icon => (d, icon)).flatten

/-- One iteration of `process_icon_opacity.main`: a missing file prints a
warning and is skipped (`continue`); an undecodable file makes
`Image.open` raise with no enclosing handler, aborting the run; a decoded
image is processed, saved, and counted.  The accumulator carries
`processed_count` and the writes performed so far. -/
def thresholdStep (fs : String × String → FileState)
    (acc : ℕ × List ((String × String) × Img)) (p : String × String) :
    Except Unit (ℕ × List ((String × String) × Img)) :=
  match fs p with
  | .missing => .ok acc
  | .corrupt => .error ()
  | .decoded img => .ok (acc.1 + 1, acc.2 ++ [(p, process_image img)])

/-- `process_icon_opacity.main` over the abstract file system:
`.ok` is a run that reaches the final print and exits zero, `.error` an
uncaught exception. -/
def runThresholdMain (fs : String × String → FileState) :
    Except Unit (ℕ × List ((String × String) × Img)) :=
  thresholdItems.foldlM (thresholdStep fs) (0, [])

/-- One iteration of `increase_smoke_opacity.main` (it only touches
`ic_notification_cigarette` per density): missing file prints a warning
and is skipped; an undecodable file aborts (no handler around
`increase_smoke_opacity`); otherwise the icon is processed in place.
The accumulator lists the in-place writes. -/
def boostOutcomeStep (m : ℚ) (fs : String → FileState)
    (acc : List (String × Img)) (d : String) :
    Except Unit (List (String × Img)) :=
  match fs d with
  | .missing => .ok acc
  | .corrupt => .error ()
  | .decoded img => .ok (acc ++ [(d, increase_smoke_opacity m img)])

/-- `increase_smoke_opacity.main` over the abstract file system
(backup copies are byte copies that cannot fail and are tracked by the
separate backup model below). -/
def runBoostMain (m : ℚ) (fs : String → FileState) :
    Except Unit (List (String × Img)) :=
  DENSITY_DIRS.foldlM (boostOutcomeStep m fs) []

/-- `download_and_convert` of `create_emoji_silhouettes.py`, with the HTTP
fetch abstracted to its result: `none` covers a non-200 status, a network
exception, or undecodable bytes (the whole body sits in one
`try/except` that prints and returns `False`).  On success it returns the
five written density variants of the white silhouette. -/
def download_and_convert (kernel : Img → ℕ → ℕ → ℕ → Pixel)
    (resp : Option Img) : Option (List (String × Img)) :=
  match resp with
  | none => none
  | some img =>
      some (DENSITIES.map fun ds =>
        (ds.1, resizeSquare kernel (silhouetteImage 255 img) ds.2))

/-- Per-density state of the boost pipeline's writer: the destination file
`drawable-<d>/ic_notification_cigarette.png` and the backup file
`backups/ic_notification_cigarette_<d>.png.backup` (`none` = absent). -/
abbrev BoostFiles := Option Img × Option Img

/-- One run of `increase_smoke_opacity.main` restricted to one density's
pair of paths, on decodable files: if the destination exists, first copy
it to the backup path unless a backup already exists (`shutil.copy2`,
byte-identical), then process the file in place. -/
def boostRunDensity (m : ℚ) : BoostFiles → BoostFiles
  | (none, b) => (none, b)
  | (some d, b) =>
      (some (increase_smoke_opacity m d), if b = none then some d else b)

/-- Whether a modelled `main` run reached its final print (exit status 0)
rather than dying on an uncaught exception. -/
def exitsZero {α : Type} : Except Unit α → Bool
  | .ok _ => true
  | .error _ => false

/-! ## Helper lemmas -/

theorem alphaAt_map_pixels (f : Pixel → Pixel) (img : Img) (i j : ℕ) :
    alphaAt (img.map (List.map f)) i j = (pixelAt img i j).map fun p => (f p).a := by
  unfold alphaAt
  rw [pixelAt_map]
  cases pixelAt img i j <;> rfl

theorem muldiv255_zero_left (y : ℕ) : muldiv255 0 y = 0 := by
  simp [muldiv255]

theorem muldiv255_zero_right (x : ℕ) : muldiv255 x 0 = 0 := by
  simp [muldiv255]

set_option maxRecDepth 4000 in
theorem muldiv255_255_left : ∀ x ≤ 255, muldiv255 255 x = x := by decide

theorem muldiv255_comm (x y : ℕ) : muldiv255 x y = muldiv255 y x := by
  simp [muldiv255, Nat.mul_comm]

theorem threshAlpha_ge (a : ℕ) (h : 39 ≤ a) : threshAlpha a = 255 := by
  rw [threshAlpha, opacity_threshold_val, if_pos h]

theorem threshAlpha_lt (a : ℕ) (h : a < 39) : threshAlpha a = 0 := by
  rw [threshAlpha, opacity_threshold_val, if_neg (by omega)]

theorem threshPixel_idem (p : Pixel) : threshPixel (threshPixel p) = threshPixel p := by
  unfold threshPixel
  rcases le_or_lt 39 p.a with h | h
  · simp [threshAlpha_ge p.a h, threshAlpha_ge 255 (by omega)]
  · simp [threshAlpha_lt p.a h, threshAlpha_lt 0 (by omega)]

/-! ## Claim theorems -/

/-- C1: `process_image` maps each pixel's alpha to 255 when the raw alpha
is at least 39 and to 0 otherwise, so every output alpha is 0 or 255; in
particular raw alpha 39 becomes 255 and raw alpha 38 becomes 0. -/
theorem c1_threshold_binarizes (img : Img) (i j a : ℕ)
    (h : alphaAt img i j = some a) :
    alphaAt (process_image img) i j = some (threshAlpha a)
    ∧ threshAlpha a = (if 39 ≤ a then 255 else 0)
    ∧ (threshAlpha a = 0 ∨ threshAlpha a = 255)
    ∧ threshAlpha 39 = 255
    ∧ threshAlpha 38 = 0 := by
  refine ⟨?_, ?_, ?_, ?_, ?_⟩
  · rw [process_image, alphaAt_map_pixels]
    unfold alphaAt at h
    cases hp : pixelAt img i j with
    | none => rw [hp] at h; cases h
    | some p =>
        rw [hp] at h
        have ha : p.a = a := by simpa using h
        simp [threshPixel, ha]
  · rw [threshAlpha, opacity_threshold_val]
  · rcases le_or_lt 39 a with h39 | h39
    · exact Or.inr (threshAlpha_ge a h39)
    · exact Or.inl (threshAlpha_lt a h39)
  · exact threshAlpha_ge 39 (by omega)
  · exact threshAlpha_lt 38 (by omega)

theorem c1_threshold_binarizes_witness :
    alphaAt [[⟨1, 2, 3, 38⟩, ⟨4, 5, 6, 39⟩]] 0 1 = some 39
    ∧ (alphaAt (process_image [[⟨1, 2, 3, 38⟩, ⟨4, 5, 6, 39⟩]]) 0 1 = some (threshAlpha 39)
        ∧ threshAlpha 39 = (if 39 ≤ 39 then 255 else 0)
        ∧ (threshAlpha 39 = 0 ∨ threshAlpha 39 = 255)
        ∧ threshAlpha 39 = 255
        ∧ threshAlpha 38 = 0) :=
  ⟨rfl, c1_threshold_binarizes [[⟨1, 2, 3, 38⟩, ⟨4, 5, 6, 39⟩]] 0 1 39 rfl⟩

/-- C10: the threshold transform is idempotent — applying `process_image`
to its own output gives the same image as applying it once. -/
theorem c10_process_image_idempotent (img : Img) :
    process_image (process_image img) = process_image img := by
  have hf : threshPixel ∘ threshPixel = threshPixel := funext threshPixel_idem
  simp [process_image, List.map_map, hf]

/-- C8: the opacity boost never modifies any pixel's R, G, or B channel;
only the alpha plane of the output may differ from the input. -/
theorem c8_boost_preserves_color (m : ℚ) (img : Img) (i j : ℕ) :
    colorAt (increase_smoke_opacity m img) i j = colorAt img i j := by
  unfold colorAt increase_smoke_opacity
  rw [pixelAt_map]
  cases pixelAt img i j <;> rfl

theorem npUint8_min255 (q : ℚ) (hq : 0 ≤ q) :
    npUint8 (min 255 q) = min 255 (Int.toNat (Int.floor q)) := by
  rcases le_total q 255 with h | h
  · rw [min_eq_right h]
    unfold npUint8 truncTowardZero
    rw [if_pos hq]
    have h0 : 0 ≤ Int.floor q := Int.floor_nonneg.mpr hq
    have h255 : Int.floor q ≤ 255 := by
      have := Int.floor_le_floor h
      simpa using this
    rw [Int.emod_eq_of_lt h0 (by omega)]
    omega
  · rw [min_eq_left h]
    have h255 : (255 : ℤ) ≤ Int.floor q := Int.le_floor.mpr (by exact_mod_cast h)
    have hr : npUint8 (255 : ℚ) = 255 := by
      unfold npUint8 truncTowardZero
      norm_num
      rfl
    rw [hr]
    omega

/-- C2 as stated is false: for a smoke pixel the float alpha is cast back
to `uint8` by truncation, so the output is the floor of
`min(255, alpha * multiplier)`, not that rational itself.  At
`alpha = 1`, `multiplier = 1.5` the code stores 1 while the claim demands
`min(255, 1 * 1.5) = 1.5`. -/
theorem c2_boost_counterexample :
    alphaAt (increase_smoke_opacity (3 / 2) [[⟨0, 0, 0, 1⟩]]) 0 0
        = some (boostAlpha (3 / 2) 1)
    ∧ boostAlpha (3 / 2) 1 = 1
    ∧ ((1 : ℚ) ≠ min 255 ((1 : ℚ) * (3 / 2))) := by
  refine ⟨rfl, ?_, ?_⟩
  · norm_num [boostAlpha, npUint8, truncTowardZero, min_def]
  · norm_num [min_def]

/-- C2 amended: for every nonnegative multiplier, the boost leaves a
pixel's alpha unchanged when it is at least 240, and sets it to
`min(255, floor(alpha * multiplier))` — the truncation of the claimed
value — when it is below 240. -/
theorem c2_boost_amended (m : ℚ) (hm : 0 ≤ m) (img : Img) (i j a b : ℕ)
    (h : alphaAt img i j = some a) (ha : a < 240) (hb : 240 ≤ b) :
    alphaAt (increase_smoke_opacity m img) i j = some (boostAlpha m a)
    ∧ boostAlpha m a = min 255 (Int.toNat (Int.floor ((a : ℚ) * m)))
    ∧ boostAlpha m b = b := by
  refine ⟨?_, ?_, ?_⟩
  · rw [increase_smoke_opacity, alphaAt_map_pixels]
    unfold alphaAt at h
    cases hp : pixelAt img i j with
    | none => rw [hp] at h; cases h
    | some p =>
        rw [hp] at h
        have hpa : p.a = a := by simpa using h
        simp [boostPixel, hpa]
  · rw [boostAlpha, if_pos ha]
    exact npUint8_min255 _ (mul_nonneg (Nat.cast_nonneg a) hm)
  · rw [boostAlpha, if_neg (by omega)]

theorem c2_boost_amended_witness :
    (0 : ℚ) ≤ 3 / 2
    ∧ alphaAt [[⟨7, 8, 9, 100⟩]] 0 0 = some 100
    ∧ 100 < 240
    ∧ 240 ≤ 240
    ∧ (alphaAt (increase_smoke_opacity (3 / 2) [[⟨7, 8, 9, 100⟩]]) 0 0
          = some (boostAlpha (3 / 2) 100)
        ∧ boostAlpha (3 / 2) 100 = min 255 (Int.toNat (Int.floor ((100 : ℚ) * (3 / 2))))
        ∧ boostAlpha (3 / 2) 240 = 240) :=
  ⟨by norm_num, rfl, by norm_num, le_refl 240,
    c2_boost_amended (3 / 2) (by norm_num) [[⟨7, 8, 9, 100⟩]] 0 0 100 240 rfl
      (by norm_num) (le_refl 240)⟩

theorem blendChannel_white (a : ℕ) (ha : a ≤ 255) : blendChannel 0 255 a = a := by
  rw [blendChannel, muldiv255_zero_left, muldiv255_255_left a ha, Nat.zero_add]

/-- C3 as stated is false: `Image.composite` interpolates the fill against
the transparent black base by the mask, so a pixel with source alpha 128
gets color 128, not the uniform fill 255 — only the alpha-preservation
half of the claim holds. -/
theorem c3_silhouette_counterexample :
    silhouetteImage 255 [[⟨0, 0, 0, 128⟩]] = [[⟨128, 128, 128, 128⟩]]
    ∧ (128 : ℕ) ≠ 255 := by
  exact ⟨by decide, by decide⟩

/-- C3 amended: the white silhouette transform preserves the source alpha
plane exactly, and each color channel carries the fill blended against
black by the source alpha — `muldiv255 255 a = a` — which equals the fill
color only at fully opaque pixels. -/
theorem c3_silhouette_amended (img : Img) (i j a : ℕ)
    (h : alphaAt img i j = some a) (ha : a ≤ 255) :
    alphaAt (silhouetteImage 255 img) i j = alphaAt img i j
    ∧ colorAt (silhouetteImage 255 img) i j = some (a, a, a)
    ∧ (a = 255 → colorAt (silhouetteImage 255 img) i j = some (255, 255, 255)) := by
  have hcolor : colorAt (silhouetteImage 255 img) i j = some (a, a, a) := by
    unfold colorAt silhouetteImage
    rw [pixelAt_map]
    unfold alphaAt at h
    cases hp : pixelAt img i j with
    | none => rw [hp] at h; cases h
    | some p =>
        rw [hp] at h
        have hpa : p.a = a := by simpa using h
        simp [silhouettePixel, hpa, blendChannel_white a ha]
  refine ⟨?_, hcolor, fun h255 => by rw [hcolor, h255]⟩
  · unfold alphaAt silhouetteImage
    rw [pixelAt_map]
    cases pixelAt img i j <;> rfl

theorem c3_silhouette_amended_witness :
    alphaAt [[⟨9, 9, 9, 64⟩]] 0 0 = some 64
    ∧ 64 ≤ 255
    ∧ (alphaAt (silhouetteImage 255 [[⟨9, 9, 9, 64⟩]]) 0 0 = alphaAt [[⟨9, 9, 9, 64⟩]] 0 0
        ∧ colorAt (silhouetteImage 255 [[⟨9, 9, 9, 64⟩]]) 0 0 = some (64, 64, 64)
        ∧ (64 = 255 →
            colorAt (silhouetteImage 255 [[⟨9, 9, 9, 64⟩]]) 0 0 = some (255, 255, 255))) :=
  ⟨rfl, by norm_num, c3_silhouette_amended [[⟨9, 9, 9, 64⟩]] 0 0 64 rfl (by norm_num)⟩

/-- C4 as stated is false: the silhouette keeps the source alpha
(`putalpha(alpha)`), so a pixel with source alpha 100 stays at alpha 100
instead of being forced to 255. -/
theorem c4_silhouette_counterexample :
    pixelAt (silhouetteImage 255 [[⟨0, 0, 0, 100⟩]]) 0 0 = some ⟨100, 100, 100, 100⟩
    ∧ (0 : ℕ) < 100
    ∧ (100 : ℕ) ≠ 255 := by
  exact ⟨by decide, by decide, by decide⟩

/-- C4 amended: the silhouette's output alpha equals the source alpha;
a fully opaque source pixel becomes the solid fill at full opacity, a
zero-alpha source pixel becomes fully transparent black, and partially
transparent pixels keep their partial alpha. -/
theorem c4_silhouette_amended (fill : ℕ) (img : Img) (i j : ℕ) (p : Pixel)
    (hp : pixelAt img i j = some p) (hfill : fill ≤ 255) :
    pixelAt (silhouetteImage fill img) i j = some (silhouettePixel fill p)
    ∧ (silhouettePixel fill p).a = p.a
    ∧ (p.a = 0 → silhouettePixel fill p = ⟨0, 0, 0, 0⟩)
    ∧ (p.a = 255 → silhouettePixel fill p = ⟨fill, fill, fill, 255⟩) := by
  refine ⟨?_, rfl, ?_, ?_⟩
  · unfold silhouetteImage
    rw [pixelAt_map, hp]
    rfl
  · intro h0
    simp [silhouettePixel, h0, blendChannel, muldiv255_zero_left, muldiv255_zero_right]
  · intro h255
    have hfl : muldiv255 fill 255 = fill := by
      rw [muldiv255_comm, muldiv255_255_left fill hfill]
    simp [silhouettePixel, h255, blendChannel, muldiv255_zero_left,
      muldiv255_zero_right, hfl]

theorem c4_silhouette_amended_witness :
    pixelAt [[⟨3, 4, 5, 255⟩]] 0 0 = some ⟨3, 4, 5, 255⟩
    ∧ 255 ≤ 255
    ∧ (pixelAt (silhouetteImage 255 [[⟨3, 4, 5, 255⟩]]) 0 0
          = some (silhouettePixel 255 ⟨3, 4, 5, 255⟩)
        ∧ (silhouettePixel 255 ⟨3, 4, 5, 255⟩).a = (⟨3, 4, 5, 255⟩ : Pixel).a
        ∧ ((⟨3, 4, 5, 255⟩ : Pixel).a = 0 → silhouettePixel 255 ⟨3, 4, 5, 255⟩ = ⟨0, 0, 0, 0⟩)
        ∧ ((⟨3, 4, 5, 255⟩ : Pixel).a = 255 →
            silhouettePixel 255 ⟨3, 4, 5, 255⟩ = ⟨255, 255, 255, 255⟩)) :=
  ⟨rfl, le_refl 255,
    c4_silhouette_amended 255 [[⟨3, 4, 5, 255⟩]] 0 0 ⟨3, 4, 5, 255⟩ rfl (le_refl 255)⟩

/-- C7 as stated is false: the threshold script modifies only alpha, so a
pixel it makes fully transparent keeps its source color — here color
`(200, 10, 10)` survives at alpha 0 — and the claim's exception names only
the boost script. -/
theorem c7_invariant_counterexample :
    process_image [[⟨200, 10, 10, 38⟩]] = [[⟨200, 10, 10, 0⟩]]
    ∧ (200 : ℕ) ≠ 0 := by
  constructor
  · norm_num [process_image, threshPixel, threshAlpha, opacity_threshold_val]
  · norm_num

/-- C7 amended: the silhouette script leaves no color data in fully
transparent output pixels, while the threshold and boost scripts modify
only the alpha plane and so may leave source color data in pixels that end
up fully transparent. -/
theorem c7_invariant_amended (img : Img) (m : ℚ) (fill i j : ℕ) (p : Pixel)
    (hp : pixelAt (silhouetteImage fill img) i j = some p) (hpa : p.a = 0) :
    (p.r = 0 ∧ p.g = 0 ∧ p.b = 0)
    ∧ colorAt (process_image img) i j = colorAt img i j
    ∧ colorAt (increase_smoke_opacity m img) i j = colorAt img i j := by
  refine ⟨?_, ?_, ?_⟩
  · rw [silhouetteImage, pixelAt_map] at hp
    cases hq : pixelAt img i j with
    | none => rw [hq] at hp; cases hp
    | some q =>
        rw [hq] at hp
        have hpq : silhouettePixel fill q = p := by simpa using hp
        have hqa : q.a = 0 := by
          rw [← hpa, ← hpq]
          rfl
        rw [← hpq]
        simp [silhouettePixel, hqa, blendChannel, muldiv255_zero_left, muldiv255_zero_right]
  · unfold colorAt process_image
    rw [pixelAt_map]
    cases pixelAt img i j <;> rfl
  · unfold colorAt increase_smoke_opacity
    rw [pixelAt_map]
    cases pixelAt img i j <;> rfl

theorem c7_invariant_amended_witness :
    pixelAt (silhouetteImage 255 [[⟨200, 10, 10, 0⟩]]) 0 0 = some ⟨0, 0, 0, 0⟩
    ∧ (⟨0, 0, 0, 0⟩ : Pixel).a = 0
    ∧ (((⟨0, 0, 0, 0⟩ : Pixel).r = 0 ∧ (⟨0, 0, 0, 0⟩ : Pixel).g = 0
          ∧ (⟨0, 0, 0, 0⟩ : Pixel).b = 0)
        ∧ colorAt (process_image [[⟨200, 10, 10, 0⟩]]) 0 0 = colorAt [[⟨200, 10, 10, 0⟩]] 0 0
        ∧ colorAt (increase_smoke_opacity (3 / 2) [[⟨200, 10, 10, 0⟩]]) 0 0
            = colorAt [[⟨200, 10, 10, 0⟩]] 0 0) :=
  ⟨by decide, rfl,
    c7_invariant_amended [[⟨200, 10, 10, 0⟩]] (3 / 2) 255 0 0 ⟨0, 0, 0, 0⟩ (by decide) rfl⟩

/-- C9: for every density in the fixed list, `resize((size, size))`
produces an exact square raster of the requested edge length, and that
length is one of 24, 36, 48, 72, 96 — for any source image and any
resampling kernel. -/
theorem c9_resample_square (kernel : Img → ℕ → ℕ → ℕ → Pixel) (img : Img)
    (d : String × ℕ) (hd : d ∈ DENSITIES) :
    (resizeSquare kernel img d.2).length = d.2
    ∧ (∀ row ∈ resizeSquare kernel img d.2, row.length = d.2)
    ∧ d.2 ∈ [24, 36, 48, 72, 96] := by
  refine ⟨?_, ?_, ?_⟩
  · simp [resizeSquare]
  · intro row hrow
    rw [resizeSquare] at hrow
    obtain ⟨i, _, rfl⟩ := List.mem_map.mp hrow
    simp
  · fin_cases hd <;> decide

theorem c9_resample_square_witness :
    ("mdpi", 24) ∈ DENSITIES
    ∧ ((resizeSquare (fun _ _ _ _ => ⟨0, 0, 0, 0⟩) [] ("mdpi", 24).2).length = ("mdpi", 24).2
        ∧ (∀ row ∈ resizeSquare (fun _ _ _ _ => ⟨0, 0, 0, 0⟩) [] ("mdpi", 24).2,
            row.length = ("mdpi", 24).2)
        ∧ ("mdpi", 24).2 ∈ [24, 36, 48, 72, 96]) :=
  ⟨by decide, c9_resample_square (fun _ _ _ _ => ⟨0, 0, 0, 0⟩) [] ("mdpi", 24) (by decide)⟩

theorem thresholdRun_ok (fs : String × String → FileState)
    (l : List (String × String))
    (h : ∀ p ∈ l, fs p ≠ FileState.corrupt) :
    ∀ acc, exitsZero (l.foldlM (thresholdStep fs) acc) = true := by
  induction l with
  | nil => intro acc; rfl
  | cons p t ih =>
      intro acc
      have hp := h p (List.mem_cons_self p t)
      have ht : ∀ q ∈ t, fs q ≠ FileState.corrupt :=
        fun q hq => h q (List.mem_cons_of_mem p hq)
      cases hfs : fs p with
      | missing => simpa [List.foldlM_cons, thresholdStep, hfs] using ih ht _
      | corrupt => exact absurd hfs hp
      | decoded img => simpa [List.foldlM_cons, thresholdStep, hfs] using ih ht _

theorem boostRun_ok (m : ℚ) (fs : String → FileState) (l : List String)
    (h : ∀ d ∈ l, fs d ≠ FileState.corrupt) :
    ∀ acc, exitsZero (l.foldlM (boostOutcomeStep m fs) acc) = true := by
  induction l with
  | nil => intro acc; rfl
  | cons p t ih =>
      intro acc
      have hp := h p (List.mem_cons_self p t)
      have ht : ∀ q ∈ t, fs q ≠ FileState.corrupt :=
        fun q hq => h q (List.mem_cons_of_mem p hq)
      cases hfs : fs p with
      | missing => simpa [List.foldlM_cons, boostOutcomeStep, hfs] using ih ht _
      | corrupt => exact absurd hfs hp
      | decoded img => simpa [List.foldlM_cons, boostOutcomeStep, hfs] using ih ht _

/-- C5 as stated is false: the threshold and boost scripts only guard
against missing files; an image decode error (`Image.open` raising on an
existing but undecodable file) has no enclosing handler in either `main`
and aborts the whole run. -/
theorem c5_error_handling_counterexample :
    runThresholdMain (fun _ => FileState.corrupt) = Except.error ()
    ∧ runBoostMain (3 / 2) (fun _ => FileState.corrupt) = Except.error () :=
  ⟨rfl, rfl⟩

/-- C5 amended: a missing input file is reported as a console warning and
only that icon/density item is skipped, and as long as no existing input
file fails to decode, the threshold and boost runs process their whole
fixed lists and exit zero; the silhouette script wraps each icon in a
catch-all handler, so it always runs its whole icon list (a failed or
undecodable download makes that one icon return failure).  An existing
undecodable file in the threshold or boost script, however, aborts the
run. -/
theorem c5_error_handling_amended (m : ℚ) (fs : String × String → FileState)
    (fs2 : String → FileState) (kernel : Img → ℕ → ℕ → ℕ → Pixel)
    (resps : List (Option Img))
    (h1 : ∀ p, fs p ≠ FileState.corrupt)
    (h2 : ∀ d, fs2 d ≠ FileState.corrupt) :
    exitsZero (runThresholdMain fs) = true
    ∧ exitsZero (runBoostMain m fs2) = true
    ∧ (resps.map (download_and_convert kernel)).length = resps.length := by
  refine ⟨?_, ?_, ?_⟩
  · exact thresholdRun_ok fs thresholdItems (fun p _ => h1 p) _
  · exact boostRun_ok m fs2 DENSITY_DIRS (fun d _ => h2 d) _
  · exact List.length_map resps (download_and_convert kernel)

theorem c5_error_handling_amended_witness :
    (∀ p : String × String, (fun _ => FileState.missing) p ≠ FileState.corrupt)
    ∧ (∀ d : String, (fun _ => FileState.decoded [[⟨0, 0, 0, 7⟩]]) d ≠ FileState.corrupt)
    ∧ (exitsZero (runThresholdMain (fun _ => FileState.missing)) = true
        ∧ exitsZero (runBoostMain (3 / 2) (fun _ => FileState.decoded [[⟨0, 0, 0, 7⟩]])) = true
        ∧ ([none].map (download_and_convert (fun _ _ _ _ => ⟨0, 0, 0, 0⟩))).length
            = [(none : Option Img)].length) :=
  by
  refine ⟨?_, ?_, ?_⟩
  · intro p h
    cases h
  · intro d h
    cases h
  · exact c5_error_handling_amended (3 / 2) (fun _ => FileState.missing)
      (fun _ => FileState.decoded [[⟨0, 0, 0, 7⟩]]) (fun _ _ _ _ => ⟨0, 0, 0, 0⟩)
      [none] (fun _ h => by cases h) (fun _ h => by cases h)

/-- C6: for each density the boost pipeline copies the existing
destination unchanged to its backup path before the in-place write,
skips the copy when a backup already exists, and therefore running the
pipeline twice leaves the backup equal to the pre-first-run original —
the second run never overwrites it. -/
theorem c6_backup_once (m : ℚ) (d b0 : Img) (st : BoostFiles)
    (hst : st.2 = some b0) :
    boostRunDensity m (some d, none) = (some (increase_smoke_opacity m d), some d)
    ∧ (boostRunDensity m (boostRunDensity m (some d, none))).2 = some d
    ∧ (boostRunDensity m st).2 = some b0 := by
  refine ⟨rfl, rfl, ?_⟩
  obtain ⟨o, b⟩ := st
  have hb : b = some b0 := hst
  cases o with
  | none => simpa [boostRunDensity] using hb
  | some x => simp [boostRunDensity, hb]

theorem c6_backup_once_witness :
    ((some [[⟨1, 1, 1, 9⟩]], some [[⟨0, 0, 0, 10⟩]]) : BoostFiles).2 = some [[⟨0, 0, 0, 10⟩]]
    ∧ (boostRunDensity (3 / 2) (some [[⟨0, 0, 0, 10⟩]], none)
          = (some (increase_smoke_opacity (3 / 2) [[⟨0, 0, 0, 10⟩]]), some [[⟨0, 0, 0, 10⟩]])
        ∧ (boostRunDensity (3 / 2)
            (boostRunDensity (3 / 2) (some [[⟨0, 0, 0, 10⟩]], none))).2 = some [[⟨0, 0, 0, 10⟩]]
        ∧ (boostRunDensity (3 / 2)
            ((some [[⟨1, 1, 1, 9⟩]], some [[⟨0, 0, 0, 10⟩]]) : BoostFiles)).2
            = some [[⟨0, 0, 0, 10⟩]]) :=
  ⟨rfl,
    c6_backup_once (3 / 2) [[⟨0, 0, 0, 10⟩]] [[⟨0, 0, 0, 10⟩]]
      (some [[⟨1, 1, 1, 9⟩]], some [[⟨0, 0, 0, 10⟩]]) rfl⟩

end Airtime
